import Mathlib

/-!
Verification of the multi-format Bible reference resolver of `bible_api`
(`azure_xml_service.py` and the reference parser in `main.py`).

The Python code is shallowly embedded: XML element trees become the inductive
type `Elem` (mirroring `xml.etree.ElementTree.Element` with `tag`, `attrib`,
`text`, children and `tail`), Python string operations become executable
functions over `List Char` (ASCII model of CPython semantics), machine-level
plumbing (Azure blob client, `ET.fromstring`) becomes an explicit environment
record, and the mutable service caches become explicit state passing.
-/

/-! ## Python string primitives (ASCII model) -/

/-- Characters treated as whitespace by CPython's `str.strip()` / `\s`
(ASCII fragment: space, tab, newline, carriage return, vertical tab, form feed). -/
def pyIsSpace (c : Char) : Bool :=
  c = ' ' || c = '\t' || c = '\n' || c = '\r' || c = '\x0b' || c = '\x0c'

/-- Python `str.strip()` with no argument: drop whitespace from both ends. -/
def pyStripChars (cs : List Char) : List Char :=
  ((cs.dropWhile pyIsSpace).reverse.dropWhile pyIsSpace).reverse

/-- Python `str.strip()`. -/
def pyStrip (s : String) : String :=
  ⟨pyStripChars s.data⟩

/-- Python `str.upper()` (ASCII model). -/
def pyUpper (s : String) : String := ⟨s.data.map Char.toUpper⟩

/-- Python `str.lower()` (ASCII model). -/
def pyLower (s : String) : String := ⟨s.data.map Char.toLower⟩

/-- Python `s[:n]` on strings (character slicing). -/
def pyTake (s : String) (n : Nat) : String := ⟨s.data.take n⟩

/-- Value of a nonempty decimal digit string. -/
def digitsToNat (cs : List Char) : Nat :=
  cs.foldl (fun n c => n * 10 + (c.toNat - 48)) 0

/-- Shared core of `int()`: a sign flag and the remaining characters, which must
be one or more ASCII digits. -/
def pyIntCore (neg : Bool) (ds : List Char) : Option Int :=
  if ds ≠ [] ∧ ds.all Char.isDigit then
    some (if neg then -(digitsToNat ds : Int) else (digitsToNat ds : Int))
  else none

/-- Python `int(s)`: optional surrounding whitespace, optional sign, then one or
more digits; any other shape raises `ValueError`, modelled as `none`
(ASCII model; PEP-515 underscores and non-ASCII digits are out of scope). -/
def pyInt? (s : String) : Option Int :=
  match (pyStrip s).data with
  | [] => none
  | '-' :: rest => pyIntCore true rest
  | '+' :: rest => pyIntCore false rest
  | cs => pyIntCore false cs

/-- Python `sub in s` (substring containment). -/
def strContains (s sub : String) : Bool :=
  s.data.tails.any (fun t => sub.data.isPrefixOf t)

/-- Python `s.startswith(pre)`. -/
def strStarts (s pre : String) : Bool := pre.data.isPrefixOf s.data

/-- Python `s.endswith(suf)`. -/
def strEnds (s suf : String) : Bool := suf.data.isSuffixOf s.data

/-- Python `s.split(sep)` for a single-character separator. -/
def splitOnChar (sep : Char) : List Char → List (List Char)
  | [] => [[]]
  | c :: rest =>
    let r := splitOnChar sep rest
    if c = sep then [] :: r
    else
      match r with
      | [] => [[c]]
      | h :: t => (c :: h) :: t

/-- Scan of Python `str.replace`: move left to right; at a pattern occurrence
emit the replacement and skip the rest of the occurrence (the `skip` counter
holds how many already-matched characters remain to be discarded), otherwise
copy one character. -/
def replaceAllAux (pat rep : List Char) : Nat → List Char → List Char
  | _ + 1, [] => []
  | skip + 1, _ :: rest => replaceAllAux pat rep skip rest
  | 0, [] => []
  | 0, c :: rest =>
    if pat.isPrefixOf (c :: rest) then
      rep ++ replaceAllAux pat rep (pat.length - 1) rest
    else
      c :: replaceAllAux pat rep 0 rest

/-- Python `s.replace(pat, rep)`: replace all non-overlapping occurrences,
left to right (for the nonempty patterns used by the code). -/
def pyReplace (s pat rep : String) : String :=
  if pat.data.isEmpty then s else ⟨replaceAllAux pat.data rep.data 0 s.data⟩

/-- First value bound to a key in an association list (Python `dict.get`; the
dict literals embedded below have pairwise distinct keys, so first-match lookup
agrees with Python's last-write-wins dict construction). -/
def lookupAssoc {α : Type} (l : List (String × α)) (k : String) : Option α :=
  match l with
  | [] => none
  | (k', v) :: t => if k' = k then some v else lookupAssoc t k

/-! ## XML element trees (`xml.etree.ElementTree.Element`) -/

/-- An XML element: tag, attributes, leading text, child elements, and the
trailing `tail` text that follows the element's closing tag. -/
inductive Elem : Type where
  | mk : String → List (String × String) → Option String → List Elem → Option String → Elem

/-- Tag of an element. -/
def Elem.tag : Elem → String
  | .mk t _ _ _ _ => t

/-- Attribute list of an element. -/
def Elem.attrs : Elem → List (String × String)
  | .mk _ a _ _ _ => a

/-- Text directly inside the element, before any child (`Element.text`). -/
def Elem.text : Elem → Option String
  | .mk _ _ x _ _ => x

/-- Child elements. -/
def Elem.children : Elem → List Elem
  | .mk _ _ _ cs _ => cs

/-- Text following the element's closing tag (`Element.tail`). -/
def Elem.tail : Elem → Option String
  | .mk _ _ _ _ tl => tl

/-- Python `elem.get(key)` / `key in elem.attrib`. -/
def Elem.attr (e : Elem) (k : String) : Option String :=
  lookupAssoc e.attrs k

mutual

/-- Python `elem.iter()`: the element itself followed by all descendants in
document order. -/
def iterElems : Elem → List Elem
  | .mk t a x cs tl => .mk t a x cs tl :: iterElemsList cs

/-- Concatenated `iter()` traversals of a list of sibling elements. -/
def iterElemsList : List Elem → List Elem
  | [] => []
  | e :: es => iterElems e ++ iterElemsList es

end

mutual

/-- Python `''.join(elem.itertext())`: the element's own text followed by each
child's `itertext` and that child's tail. -/
def itertextE : Elem → String
  | .mk _ _ x cs _ => x.getD "" ++ itertextL cs

/-- Inner text of a sibling list, each element's `itertext` followed by its tail. -/
def itertextL : List Elem → String
  | [] => ""
  | e :: es => itertextE e ++ (Elem.tail e).getD "" ++ itertextL es

end

/-- Python `root.find('.//…')` / `root.findall('.//…')` search space: all proper
descendants of `root` in document order (the root itself is excluded by `.//`). -/
def findDesc (root : Elem) (p : Elem → Bool) : Option Elem :=
  (iterElemsList root.children).find? p

/-- All proper descendants of `root` satisfying `p`, in document order. -/
def findallDesc (root : Elem) (p : Elem → Bool) : List Elem :=
  (iterElemsList root.children).filter p

/-! ## Python `sorted(…, key=…)` (stable sort by an integer key) -/

/-- Insert `a` into an already-sorted list, after all elements whose key is
less than or equal to `a`'s (so that the overall sort is stable, like Python's). -/
def insSorted {α : Type} (key : α → Int) (a : α) : List α → List α
  | [] => [a]
  | b :: t => if key b ≤ key a then b :: insSorted key a t else a :: b :: t

/-- Python `sorted(l, key=key)`: a stable sort, realised as left-to-right
stable insertion. -/
def pySorted {α : Type} (key : α → Int) (l : List α) : List α :=
  l.foldl (fun acc a => insSorted key a acc) []

theorem mem_insSorted {α : Type} (key : α → Int) (a : α) (l : List α) (x : α) :
    x ∈ insSorted key a l ↔ x = a ∨ x ∈ l := by
  induction l with
  | nil => simp [insSorted]
  | cons b t ih =>
    by_cases h : key b ≤ key a
    · simp only [insSorted, if_pos h, List.mem_cons, ih]
      tauto
    · simp only [insSorted, if_neg h, List.mem_cons]

theorem pairwise_insSorted {α : Type} (key : α → Int) (a : α) (l : List α)
    (h : l.Pairwise (fun x y => key x ≤ key y)) :
    (insSorted key a l).Pairwise (fun x y => key x ≤ key y) := by
  induction l with
  | nil => simp [insSorted]
  | cons b t ih =>
    rcases List.pairwise_cons.mp h with ⟨hb, ht⟩
    by_cases hba : key b ≤ key a
    · rw [insSorted, if_pos hba]
      refine List.pairwise_cons.mpr ⟨?_, ih ht⟩
      intro x hx
      rcases (mem_insSorted key a t x).mp hx with rfl | hxt
      · exact hba
      · exact hb x hxt
    · rw [insSorted, if_neg hba]
      refine List.pairwise_cons.mpr ⟨?_, h⟩
      intro x hx
      rcases List.mem_cons.mp hx with rfl | hxt
      · omega
      · exact le_trans (by omega) (hb x hxt)

theorem pairwise_foldl_insSorted {α : Type} (key : α → Int) (l acc : List α)
    (h : acc.Pairwise (fun x y => key x ≤ key y)) :
    (l.foldl (fun acc a => insSorted key a acc) acc).Pairwise
      (fun x y => key x ≤ key y) := by
  induction l generalizing acc with
  | nil => exact h
  | cons a t ih => exact ih _ (pairwise_insSorted key a acc h)

/-- The result of the Python `sorted` call is non-decreasing in the key. -/
theorem pairwise_pySorted {α : Type} (key : α → Int) (l : List α) :
    (pySorted key l).Pairwise (fun x y => key x ≤ key y) :=
  pairwise_foldl_insSorted key l [] (by simp)

theorem mem_foldl_insSorted {α : Type} (key : α → Int) (l acc : List α) (x : α) :
    x ∈ l.foldl (fun acc a => insSorted key a acc) acc ↔ x ∈ acc ∨ x ∈ l := by
  induction l generalizing acc with
  | nil => simp
  | cons a t ih =>
    simp only [List.foldl_cons, ih, mem_insSorted, List.mem_cons]
    tauto

/-- Sorting does not change the multiset of records; we only need membership. -/
theorem mem_pySorted {α : Type} (key : α → Int) (l : List α) (x : α) :
    x ∈ pySorted key l ↔ x ∈ l := by
  simp [pySorted, mem_foldl_insSorted]

/-! ## `AzureXMLBibleService._normalize_book_id` -/

/-- Alias table of `_normalize_book_id` (`azure_xml_service.py`, lines 173–194),
in source order. -/
def book_mapping : List (String × String) :=
  [("GENESIS", "GEN"), ("EXODUS", "EXO"), ("LEVITICUS", "LEV"), ("NUMBERS", "NUM"),
   ("DEUTERONOMY", "DEU"), ("JOSHUA", "JOS"), ("JUDGES", "JDG"), ("RUTH", "RUT"),
   ("1SAMUEL", "1SA"), ("2SAMUEL", "2SA"), ("1KINGS", "1KI"), ("2KINGS", "2KI"),
   ("1CHRONICLES", "1CH"), ("2CHRONICLES", "2CH"), ("EZRA", "EZR"), ("NEHEMIAH", "NEH"),
   ("ESTHER", "EST"), ("JOB", "JOB"), ("PSALMS", "PSA"), ("PROVERBS", "PRO"),
   ("ECCLESIASTES", "ECC"), ("SONGOFSOLOMON", "SNG"), ("ISAIAH", "ISA"),
   ("JEREMIAH", "JER"), ("LAMENTATIONS", "LAM"), ("EZEKIEL", "EZK"), ("DANIEL", "DAN"),
   ("HOSEA", "HOS"), ("JOEL", "JOL"), ("AMOS", "AMO"), ("OBADIAH", "OBA"),
   ("JONAH", "JON"), ("MICAH", "MIC"), ("NAHUM", "NAH"), ("HABAKKUK", "HAB"),
   ("ZEPHANIAH", "ZEP"), ("HAGGAI", "HAG"), ("ZECHARIAH", "ZEC"), ("MALACHI", "MAL"),
   ("MATTHEW", "MAT"), ("MARK", "MRK"), ("LUKE", "LUK"), ("JOHN", "JHN"),
   ("ACTS", "ACT"), ("ROMANS", "ROM"), ("1CORINTHIANS", "1CO"), ("2CORINTHIANS", "2CO"),
   ("GALATIANS", "GAL"), ("EPHESIANS", "EPH"), ("PHILIPPIANS", "PHP"),
   ("COLOSSIANS", "COL"), ("1THESSALONIANS", "1TH"), ("2THESSALONIANS", "2TH"),
   ("1TIMOTHY", "1TI"), ("2TIMOTHY", "2TI"), ("TITUS", "TIT"), ("PHILEMON", "PHM"),
   ("HEBREWS", "HEB"), ("JAMES", "JAS"), ("1PETER", "1PE"), ("2PETER", "2PE"),
   ("1JOHN", "1JN"), ("2JOHN", "2JN"), ("3JOHN", "3JN"), ("JUDE", "JUD"),
   ("REVELATION", "REV"),
   ("MATT", "MAT"), ("PHIL", "PHP"), ("PROV", "PRO"), ("ECCL", "ECC"), ("SONG", "SNG"),
   ("ISA", "ISA"), ("JER", "JER"), ("LAM", "LAM"), ("EZEK", "EZK"), ("DAN", "DAN"),
   ("JON", "JON"), ("MIC", "MIC"), ("NAH", "NAH"), ("HAB", "HAB"), ("ZEP", "ZEP"),
   ("HAG", "HAG"), ("ZEC", "ZEC"), ("MAL", "MAL"), ("REV", "REV")]

/-- `AzureXMLBibleService._normalize_book_id` (lines 164–196): uppercase and
strip; length-3 inputs are returned as-is; otherwise look up the space-free
form in the alias table and fall back to the first three characters. -/
def normalize_book_id (book_input : String) : String :=
  let b := pyStrip (pyUpper book_input)
  if b.length = 3 then b
  else (lookupAssoc book_mapping (pyReplace b " " "")).getD (pyTake b 3)

/-! ## Book element lookup (`get_verses_by_reference` lines 241–258 and
`_find_book_in_xml` lines 198–223) -/

/-- Python truthiness of an `Optional[Element]`: `None` is falsy, and an
`Element` itself is falsy when it has no children (the `ElementTree`
`__bool__`/`__len__` behaviour that the code's `if not book_element:` relies on). -/
def elemTruthy : Option Elem → Bool
  | none => false
  | some e => !e.children.isEmpty

/-- `AzureXMLBibleService._find_book_in_xml`: try six attribute patterns in
order with `root.find`, then fall back to a `name`-attribute substring/prefix
scan over `.//book` elements. -/
def find_book_in_xml (root : Elem) (book_id : String) : Option Elem :=
  let n := normalize_book_id book_id
  (findDesc root (fun e => e.attr "osisID" == some book_id)).orElse fun _ =>
  (findDesc root (fun e => e.attr "osisID" == some n)).orElse fun _ =>
  (findDesc root (fun e => e.attr "id" == some book_id)).orElse fun _ =>
  (findDesc root (fun e => e.attr "id" == some n)).orElse fun _ =>
  (findDesc root (fun e => e.tag == "book" && e.attr "id" == some book_id)).orElse fun _ =>
  (findDesc root (fun e => e.tag == "book" && e.attr "id" == some n)).orElse fun _ =>
  findDesc root (fun e => e.tag == "book" &&
    (strContains (pyUpper ((e.attr "name").getD "")) n ||
     strStarts (pyUpper ((e.attr "name").getD "")) n))

/-- Book-element resolution of `get_verses_by_reference` (lines 241–254): USFX
`book[@id]` lookups on the raw and normalized ids, then `_find_book_in_xml`,
each guarded by Python truthiness (`if not book_element`), so a found but
childless book element falls through and the method returns `[]`. -/
def bookLookup (root : Elem) (book : String) : Option Elem :=
  let n := normalize_book_id book
  let b1 := findDesc root (fun e => e.tag == "book" && e.attr "id" == some book)
  let b2 := if elemTruthy b1 then b1
            else findDesc root (fun e => e.tag == "book" && e.attr "id" == some n)
  let b3 := if elemTruthy b2 then b2 else find_book_in_xml root book
  if elemTruthy b3 then b3 else none

/-! ## `AzureXMLBibleService.get_verses_by_reference` (lines 225–397)

The translation lookup and blob fetch at lines 228–234 are storage plumbing;
the embedding starts from the parsed document root (`ET.fromstring`, line 237)
and carries the translation identifier as a parameter. An XML parse failure
returns `[]` (lines 395–397); that is covered by the catalog model below. -/

/-- A verse dictionary as built by `get_verses_by_reference`. -/
structure VerseRec where
  id : Int
  book_id : String
  book : String
  chapter : Int
  verse : Int
  text : String
  translation_id : String
deriving Repr, DecidableEq

/-- Python truthiness of the optional verse bounds in the OSIS and generic
branches (`if verse_start and …`): `None` and `0` are falsy. -/
def truthyInt : Option Int → Bool
  | none => false
  | some n => n != 0

/-- Verse-range filter of the USFX branch (lines 279–280 and 308–309), which
uses proper `is None` checks. -/
def vFilter (vs ve : Option Int) (v : Int) : Bool :=
  (vs.isNone || decide (v ≥ vs.getD 0)) && (ve.isNone || decide (v ≤ ve.getD 0))

/-- State of the USFX marker scan: current chapter, current verse, accumulated
verse text and the verses emitted so far. -/
structure UsfxSt where
  cc : Option Int
  cv : Option Int
  txt : String
  out : List VerseRec

/-- Emission condition of the USFX branch (lines 277–280, repeated at 306–309):
the open verse belongs to the requested chapter, exists, has nonempty stripped
text and passes the optional range filter. -/
def usfxEmitCheck (chapter : Int) (vs ve : Option Int) (st : UsfxSt) : Bool :=
  match st.cv with
  | some v => (st.cc == some chapter) && (pyStrip st.txt != "") && vFilter vs ve v
  | none => false

/-- Close out the open verse (lines 277–290: the `verses.append` block), also
used for the final flush at lines 305–319. -/
def usfxFlush (chapter : Int) (vs ve : Option Int) (bid bname tid : String)
    (st : UsfxSt) : List VerseRec :=
  if usfxEmitCheck chapter vs ve st then
    st.out ++ [{ id := (st.out.length : Int) + 1, book_id := bid, book := bname,
                 chapter := chapter, verse := st.cv.getD 0,
                 text := pyStrip st.txt, translation_id := tid }]
  else st.out

/-- Text accumulation branch of the USFX scan (lines 298–303): any element that
is not a well-formed `c`/`v` marker contributes its `text` and `tail` to the
open verse when the current chapter is the requested one. -/
def usfxAccum (chapter : Int) (st : UsfxSt) (e : Elem) : UsfxSt :=
  if st.cc = some chapter ∧ st.cv.isSome then
    { st with txt := st.txt ++ (e.text.getD "") ++ (e.tail.getD "") }
  else st

/-- One step of the USFX marker scan (lines 268–303). A `c` marker with an
unparsable id leaves the chapter unchanged (`except ValueError: continue`);
a `v` marker first closes out the previous verse, and on an unparsable id
keeps the previous verse and its text open. -/
def usfxStep (chapter : Int) (vs ve : Option Int) (bid bname tid : String)
    (st : UsfxSt) (e : Elem) : UsfxSt :=
  if e.tag = "c" then
    match e.attr "id" with
    | some s =>
      match pyInt? s with
      | some n => { st with cc := some n }
      | none => st
    | none => usfxAccum chapter st e
  else if e.tag = "v" then
    match e.attr "id" with
    | some s =>
      let out' := usfxFlush chapter vs ve bid bname tid st
      match pyInt? s with
      | some n => { cc := st.cc, cv := some n, txt := "", out := out' }
      | none => { st with out := out' }
    | none => usfxAccum chapter st e
  else usfxAccum chapter st e

/-- The USFX branch (lines 261–319): scan `book_element.iter()` with the marker
state machine, then flush the final open verse. -/
def usfxVerses (be : Elem) (chapter : Int) (vs ve : Option Int)
    (bid bname tid : String) : List VerseRec :=
  let st := (iterElems be).foldl (usfxStep chapter vs ve bid bname tid)
    { cc := none, cv := none, txt := "", out := [] }
  usfxFlush chapter vs ve bid bname tid st

/-- Python `verse_elem.text or ''` followed by `if not text: text =
''.join(verse_elem.itertext())` (lines 349–352 and 377–379). -/
def elemText (e : Elem) : String :=
  let t := (e.text).getD ""
  if t = "" then itertextE e else t

/-- OSIS candidate collection (lines 326–333): every element of `root.iter()`
whose truthy `osisID` starts with `"<book_id>.<chapter>."`. -/
def osisCandidates (root : Elem) (bid : String) (chapter : Int) : List Elem :=
  (iterElems root).filter (fun e =>
    match e.attr "osisID" with
    | some s => (s != "") && strStarts s (bid ++ "." ++ toString chapter ++ ".")
    | none => false)

/-- Per-candidate step of the OSIS branch (lines 337–364): the verse number is
the third dot-separated segment of the `osisID`; the range filter uses Python
truthiness; the text may be empty after stripping and is appended regardless. -/
def osisStep (chapter : Int) (vs ve : Option Int) (bid bname tid : String)
    (acc : List VerseRec) (e : Elem) : List VerseRec :=
  let parts := splitOnChar '.' ((e.attr "osisID").getD "").data
  if parts.length ≥ 3 then
    match pyInt? ⟨parts.getD 2 []⟩ with
    | some vn =>
      if truthyInt vs && decide (vn < vs.getD 0) then acc
      else if truthyInt ve && decide (vn > ve.getD 0) then acc
      else acc ++ [{ id := (acc.length : Int) + 1, book_id := bid, book := bname,
                     chapter := chapter, verse := vn,
                     text := pyStrip (elemText e), translation_id := tid }]
    | none => acc
  else acc

/-- Per-verse step of the generic `chapter`/`verse` branch (lines 369–391).
A missing `number` attribute defaults to the integer `0` (`int(…get('number',
0))` cannot raise then). -/
def genericStep (chapter : Int) (vs ve : Option Int) (bid bname tid : String)
    (acc : List VerseRec) (e : Elem) : List VerseRec :=
  let vn? := match e.attr "number" with
             | some s => pyInt? s
             | none => some 0
  match vn? with
  | some vn =>
    if truthyInt vs && decide (vn < vs.getD 0) then acc
    else if truthyInt ve && decide (vn > ve.getD 0) then acc
    else acc ++ [{ id := (acc.length : Int) + 1, book_id := bid, book := bname,
                   chapter := chapter, verse := vn,
                   text := pyStrip (elemText e), translation_id := tid }]
  | none => acc

/-- The generic branch (lines 366–391): locate
`.//chapter[@number='<chapter>']` under the book element, then walk its direct
`verse` children. -/
def genericVerses (be : Elem) (chapter : Int) (vs ve : Option Int)
    (bid bname tid : String) : List VerseRec :=
  match findDesc be (fun e =>
      e.tag == "chapter" && e.attr "number" == some (toString chapter)) with
  | none => []
  | some ch =>
    (ch.children.filter (fun e => e.tag == "verse")).foldl
      (genericStep chapter vs ve bid bname tid) []

/-- `AzureXMLBibleService.get_verses_by_reference`, from the parsed root
(line 237) to the final `sorted(verses, key=lambda x: x['verse'])` (line 393). -/
def get_verses_by_reference (root : Elem) (book : String) (chapter : Int)
    (vs ve : Option Int) (tid : String) : List VerseRec :=
  match bookLookup root book with
  | none => []
  | some be =>
    let bname := (be.attr "name").getD book
    let bid := (be.attr "id").getD (normalize_book_id book)
    let verses :=
      if root.tag = "usfx" ∨ strContains root.tag "usfx" = true then
        usfxVerses be chapter vs ve bid bname tid
      else
        let ov := osisCandidates root bid chapter
        if ov.isEmpty then genericVerses be chapter vs ve bid bname tid
        else ov.foldl (osisStep chapter vs ve bid bname tid) []
    pySorted (fun r => r.verse) verses

/-! ## `AzureXMLBibleService.get_random_verse` (lines 501–551) -/

/-- A verse dictionary as built by `get_random_verse`. -/
structure RandVerse where
  book_id : String
  book : String
  chapter : Int
  verse : Int
  text : String
deriving Repr, DecidableEq

/-- Per-verse step of `get_random_verse` (lines 530–544): parse the `number`
attribute, take `text or ''.join(itertext())`, and keep the verse only when its
stripped text is nonempty. -/
def randVerseStep (bid bname : String) (chNum : Int) (acc : List RandVerse)
    (e : Elem) : List RandVerse :=
  let vn? := match e.attr "number" with
             | some s => pyInt? s
             | none => some 0
  match vn? with
  | some vn =>
    let text := elemText e
    if pyStrip text ≠ "" then
      acc ++ [{ book_id := bid, book := bname, chapter := chNum, verse := vn,
                text := pyStrip text }]
    else acc
  | none => acc

/-- Verses contributed by one `chapter` element (lines 527–546); an unparsable
`number` attribute skips the whole chapter. -/
def randChapterVerses (bid bname : String) (ch : Elem) : List RandVerse :=
  let cn? := match ch.attr "number" with
             | some s => pyInt? s
             | none => some 0
  match cn? with
  | some cn =>
    (ch.children.filter (fun e => e.tag == "verse")).foldl
      (randVerseStep bid bname cn) []
  | none => []

/-- Verses contributed by one `book` element (lines 516–546), honouring the
optional book filter, which is skipped when `books` is `None` or the empty list
(Python truthiness of `if books:`). -/
def randBookVerses (books : Option (List String)) (b : Elem) : List RandVerse :=
  let bid := (b.attr "id").getD ""
  let bname := (b.attr "name").getD bid
  let keep := match books with
              | none => true
              | some bl =>
                if bl.isEmpty then true
                else (bl.map normalize_book_id).contains (normalize_book_id bid)
  if keep then
    (findallDesc b (fun e => e.tag == "chapter")).flatMap (randChapterVerses bid bname)
  else []

/-- All candidate verses collected by `get_random_verse` (lines 513–546). -/
def randAllVerses (root : Elem) (books : Option (List String)) : List RandVerse :=
  (findallDesc root (fun e => e.tag == "book")).flatMap (randBookVerses books)

/-- `AzureXMLBibleService.get_random_verse` from the parsed root; the
`random.choice` draw is modelled by the index `r` (uniform choice picks some
index; every property proved below holds for all `r`). -/
def get_random_verse (root : Elem) (books : Option (List String)) (r : Nat) :
    Option RandVerse :=
  let all := randAllVerses root books
  if all.isEmpty then none else all.get? (r % all.length)

/-! ## `parse_bible_reference` (`main.py`, lines 163–199) -/

/-- A reference endpoint: the `{'book': …, 'chapter': …, 'verse': …}` dict. -/
structure RefPoint where
  book : String
  chapter : Int
  verse : Int
deriving Repr, DecidableEq

/-- Captured groups 1–4 of the reference regex
`^(\d?\s*[A-Za-z]+)\s+(\d+):(\d+)(?:-(\d+))?(?:,(\d+)(?:-(\d+))?)*$`
(groups 5–6 are never read by the code). -/
structure RefGroups where
  g1 : String
  g2 : String
  g3 : String
  g4 : Option String
deriving Repr, DecidableEq

/-- ASCII letter, the regex class `[A-Za-z]`. -/
def isAsciiLetter (c : Char) : Bool :=
  (decide ('A' ≤ c) && decide (c ≤ 'Z')) || (decide ('a' ≤ c) && decide (c ≤ 'z'))

/-- Consume `(?:-(\d+))?`: a dash followed by one or more digits, or nothing
(a dash not followed by a digit is left in place, as the regex backtracks the
optional group to empty). Returns the captured group and the rest. -/
def chewDash (cs : List Char) : Option String × List Char :=
  match cs with
  | '-' :: rest =>
    let ds := rest.takeWhile Char.isDigit
    if ds.isEmpty then (none, cs) else (some ⟨ds⟩, rest.dropWhile Char.isDigit)
  | _ => (none, cs)

/-- Consume `(?:,(\d+)(?:-(\d+))?)*`: comma groups, each a comma, digits and an
optional dash range; stops before a comma not followed by digits (the overall
match then fails at the end-of-string anchor). The `fuel` counter only bounds
the recursion; every iteration consumes at least two characters, so an initial
fuel of the input length is never exhausted. -/
def chewCommasFuel : Nat → List Char → List Char
  | 0, cs => cs
  | fuel + 1, cs =>
    match cs with
    | ',' :: rest =>
      let ds := rest.takeWhile Char.isDigit
      if ds.isEmpty then ',' :: rest
      else chewCommasFuel fuel (chewDash (rest.dropWhile Char.isDigit)).2
    | other => other

/-- Consume all comma groups of the reference pattern. -/
def chewCommas (cs : List Char) : List Char := chewCommasFuel cs.length cs

/-- Deterministic matcher for
`re.match(r'^(\d?\s*[A-Za-z]+)\s+(\d+):(\d+)(?:-(\d+))?(?:,(\d+)(?:-(\d+))?)*$', s)`.
The pattern has no real backtracking: `\d?` can only match when the first
character is a digit (in which case the empty alternative dies at `[A-Za-z]+`),
and every starred/maximal piece is followed by a character class disjoint from
it. Python's `$` also accepts a single trailing newline. -/
def matchRef (s : String) : Option RefGroups :=
  let cs := s.data
  let d1 : List Char × List Char :=
    match cs with
    | c :: rest => if c.isDigit then ([c], rest) else ([], cs)
    | [] => ([], cs)
  let sp := d1.2.takeWhile pyIsSpace
  let r2 := d1.2.dropWhile pyIsSpace
  let letters := r2.takeWhile isAsciiLetter
  let r3 := r2.dropWhile isAsciiLetter
  if letters.isEmpty then none
  else
    let sp2 := r3.takeWhile pyIsSpace
    if sp2.isEmpty then none
    else
      let r4 := r3.dropWhile pyIsSpace
      let ch := r4.takeWhile Char.isDigit
      if ch.isEmpty then none
      else
        match r4.dropWhile Char.isDigit with
        | ':' :: r6 =>
          let v1 := r6.takeWhile Char.isDigit
          if v1.isEmpty then none
          else
            let r7 := r6.dropWhile Char.isDigit
            let dres := chewDash r7
            let r8 := chewCommas dres.2
            if r8 = [] ∨ r8 = ['\n'] then
              some { g1 := ⟨d1.1 ++ sp ++ letters⟩, g2 := ⟨ch⟩, g3 := ⟨v1⟩,
                     g4 := dres.1 }
            else none
        | _ => none

/-- Book map of `parse_bible_reference` (`main.py`, lines 178–186). -/
def ref_book_map : List (String × String) :=
  [("john", "JHN"), ("jn", "JHN"), ("joh", "JHN"),
   ("matt", "MAT"), ("matthew", "MAT"), ("mat", "MAT"), ("mt", "MAT"),
   ("mark", "MRK"), ("mk", "MRK"), ("mar", "MRK"),
   ("luke", "LUK"), ("lk", "LUK"), ("luk", "LUK"),
   ("genesis", "GEN"), ("gen", "GEN"), ("ge", "GEN"),
   ("exodus", "EXO"), ("exo", "EXO"), ("ex", "EXO"),
   ("psalm", "PSA"), ("psalms", "PSA"), ("ps", "PSA"), ("psa", "PSA")]

/-- Input cleaning of `parse_bible_reference` (line 169):
`ref_string.strip().replace('+', ' ')`. -/
def refPreprocess (s : String) : String := pyReplace (pyStrip s) "+" " "

/-- `parse_bible_reference` (`main.py`, lines 163–199). The regex guarantees
groups 2–4 are nonempty digit strings, so the `int()` conversions cannot raise;
the corresponding fallback arms below are unreachable. -/
def parse_bible_reference (ref_string : String) :
    Option (List (RefPoint × RefPoint)) :=
  match matchRef (refPreprocess ref_string) with
  | none => none
  | some g =>
    let book_name := pyStrip (pyLower g.g1)
    let book_id := (lookupAssoc ref_book_map book_name).getD
      (pyTake (pyUpper book_name) 3)
    match pyInt? g.g2, pyInt? g.g3 with
    | some chapter, some vstart =>
      let vend := match g.g4 with
                  | some s4 => (pyInt? s4).getD vstart
                  | none => vstart
      some [({ book := book_id, chapter := chapter, verse := vstart },
             { book := book_id, chapter := chapter, verse := vend })]
    | _, _ => none

/-! ## Translation catalog (`list_translations` and helpers, lines 39–162)

Blob storage and `ET.fromstring` are external collaborators; they are modelled
by an environment: the container listing, the content of each blob, and the
XML parse oracle (a content string either parses to an element tree or fails
with `ET.ParseError`, modelled as `none`). The service caches become explicit
state, and blob downloads are counted so that memoization is observable. -/

/-- Translation metadata dict built by `_parse_xml_for_translation_info`;
`file_path` is attached by `list_translations` (line 135). -/
structure TransInfo where
  identifier : String
  name : String
  language : String
  language_code : String
  license : String
  file_path : String
deriving Repr, DecidableEq

/-- The external world: blob names in the container, blob contents
(`none` models `ResourceNotFoundError`), and the XML parser. -/
structure BlobEnv where
  blobs : List String
  content : String → Option String
  parseXml : String → Option Elem

/-- Mutable service state (`__init__`, lines 34–37): the raw-content cache,
the translation-info cache and the memoized listing. -/
structure ServiceState where
  xmlCache : List (String × String)
  translationCache : List (String × TransInfo)
  available : Option (List TransInfo)

/-- The freshly-constructed service. -/
def initState : ServiceState :=
  { xmlCache := [], translationCache := [], available := none }

/-- `AzureXMLBibleService._get_xml_content` (lines 39–56) with an added fetch
counter: `1` when the blob client is consulted, `0` on a cache hit. -/
def get_xml_content (env : BlobEnv) (st : ServiceState) (p : String) :
    Option String × ServiceState × Nat :=
  match lookupAssoc st.xmlCache p with
  | some c => (some c, st, 0)
  | none =>
    match env.content p with
    | some c => (some c, { st with xmlCache := st.xmlCache ++ [(p, c)] }, 1)
    | none => (none, st, 1)

/-- Namespace predicate used by the OSIS metadata queries
(`.//{http://www.bibletechnologies.net/2003/OSIS/namespace}tag`). -/
def osisTag (t : String) : String :=
  "\x7bhttp://www.bibletechnologies.net/2003/OSIS/namespace\x7d" ++ t

/-- `AzureXMLBibleService._parse_xml_for_translation_info` (lines 58–108); the
argument is the outcome of `ET.fromstring(xml_content)`, `none` being a parse
failure. -/
def parse_xml_for_translation_info (parsed : Option Elem) (identifier : String) :
    TransInfo :=
  match parsed with
  | none =>
    { identifier := identifier, name := pyUpper identifier,
      language := if strContains (pyLower identifier) "romanian"
                  then "romanian" else "english",
      language_code := if strContains (pyLower identifier) "romanian"
                       then "ro" else "en",
      license := "Unknown", file_path := "" }
  | some root =>
    let name0 := pyUpper identifier
    let name1 :=
      if strEnds root.tag "osis" then
        match findDesc root (fun e => e.tag == osisTag "work") with
        | some work =>
          match findDesc work (fun e => e.tag == osisTag "title") with
          | some title =>
            match title.text with
            | some t => if t ≠ "" then t else name0
            | none => name0
          | none => name0
        | none => name0
      else match root.attr "title" with
           | some t => t
           | none =>
             match root.attr "name" with
             | some n => n
             | none => name0
    let license1 :=
      if strEnds root.tag "osis" then
        match findDesc root (fun e => e.tag == osisTag "work") with
        | some work =>
          match findDesc work (fun e => e.tag == osisTag "rights") with
          | some rights =>
            match rights.text with
            | some t => if t ≠ "" then t else "Public Domain"
            | none => "Public Domain"
          | none => "Public Domain"
        | none => "Public Domain"
      else "Public Domain"
    let ro := strContains (pyLower identifier) "romanian" ||
              strContains (pyLower identifier) "ro-"
    { identifier := identifier, name := name1,
      language := if ro then "romanian" else "english",
      language_code := if ro then "ro" else "en",
      license := license1, file_path := "" }

/-- Identifier derivation of `list_translations` (lines 124–129): final path
segment, `.xml` occurrences removed, lowercased. -/
def blobIdentifier (blobName : String) : String :=
  let filename := if strContains blobName "/"
                  then ⟨(splitOnChar '/' blobName.data).getLastD []⟩
                  else blobName
  pyLower (pyReplace filename ".xml" "")

/-- The blob loop of `list_translations` (lines 121–139): each `.xml` blob is
fetched; truthy content is parsed into a `TransInfo` (with `file_path` set) and
appended to the result and to the per-identifier cache. -/
def processBlobs (env : BlobEnv) :
    List String → ServiceState → List TransInfo → Nat →
    List TransInfo × ServiceState × Nat
  | [], st, acc, n => (acc, st, n)
  | b :: bs, st, acc, n =>
    if strEnds b ".xml" then
      match get_xml_content env st b with
      | (some c, st1, k) =>
        if c ≠ "" then
          processBlobs env bs
            { st1 with translationCache := st1.translationCache ++
                [(blobIdentifier b,
                  { parse_xml_for_translation_info (env.parseXml c)
                      (blobIdentifier b) with file_path := b })] }
            (acc ++ [{ parse_xml_for_translation_info (env.parseXml c)
                        (blobIdentifier b) with file_path := b }])
            (n + k)
        else processBlobs env bs st1 acc (n + k)
      | (none, st1, k) => processBlobs env bs st1 acc (n + k)
    else processBlobs env bs st acc n

/-- `AzureXMLBibleService.list_translations` (lines 110–146): memoized listing.
The result triple is the returned list, the updated service state and the
number of blob downloads performed by the call. -/
def list_translations (env : BlobEnv) (st : ServiceState) :
    List TransInfo × ServiceState × Nat :=
  match st.available with
  | some ts => (ts, st, 0)
  | none =>
    match processBlobs env env.blobs st [] 0 with
    | (ts, st', n) => (ts, { st' with available := some ts }, n)

/-! ## Concrete documents used by the claim analyses -/

/-- A USFX document whose book JHN has chapter 1 (verses 1–2) followed by
chapter 2: the regression input for the end-of-chapter flush. -/
def usfxDocA : Elem :=
  .mk "usfx" [] none
    [.mk "book" [("id", "JHN")] none
      [.mk "c" [("id", "1")] none [] none,
       .mk "v" [("id", "1")] none [] none,
       .mk "w" [] (some "God so loved") [] none,
       .mk "v" [("id", "2")] none [] none,
       .mk "w" [] (some "the world") [] none,
       .mk "c" [("id", "2")] none [] none,
       .mk "v" [("id", "1")] none [] none,
       .mk "w" [] (some "next chapter text") [] none] none] none

/-- An OSIS document in which verse JHN.3.17 carries no text at all. -/
def osisDocB : Elem :=
  .mk "osis" [] none
    [.mk "div" [("osisID", "JHN")] none
      [.mk "verse" [("osisID", "JHN.3.16")] (some "For God") [] none,
       .mk "verse" [("osisID", "JHN.3.17")] none [] none] none] none

/-- A one-verse USFX document with nonempty verse text. -/
def usfxDocC : Elem :=
  .mk "usfx" [] none
    [.mk "book" [("id", "JHN")] none
      [.mk "c" [("id", "1")] none [] none,
       .mk "v" [("id", "1")] none [] none,
       .mk "w" [] (some "Hello") [] none] none] none

/-- An OSIS document carrying the `osisID` JHN.3.16 on two distinct elements. -/
def osisDocD : Elem :=
  .mk "osis" [] none
    [.mk "div" [("osisID", "JHN")] none
      [.mk "verse" [("osisID", "JHN.3.16")] (some "alpha") [] none,
       .mk "verse" [("osisID", "JHN.3.16")] (some "beta") [] none] none] none

/-- A USFX document (chapters as `c` markers, no `chapter` elements) holding a
verse with nonempty text. -/
def usfxDocE : Elem :=
  .mk "usfx" [] none
    [.mk "book" [("id", "MAT")] none
      [.mk "c" [("id", "1")] none [] none,
       .mk "v" [("id", "1")] none [] none,
       .mk "w" [] (some "Blessed are") [] none] none] none

/-- An OSIS document (namespace-free model: `div`/`verse` with `osisID`
attributes, no plain `book`/`chapter` tags) holding nonempty verse text. -/
def osisDocF : Elem :=
  .mk "osis" [] none
    [.mk "div" [("osisID", "MAT")] none
      [.mk "verse" [("osisID", "MAT.5.3")] (some "Blessed are the poor") [] none]
      none] none

/-! ## Claim C1 -/

/-- Claim C1 (code bug): on `usfxDocA`, chapter 1 contains verse 2 with
nonempty trimmed text "the world" and no range filter is given, yet
`get_verses_by_reference` returns only verse 1 — the `c` marker of chapter 2
overwrites `current_chapter` before the `v`/end-of-iteration emission check
runs, so the last verse of every non-final chapter is dropped, contrary to the
claim (and to the code's own `# Don't forget the last verse` flush). -/
theorem c1_last_verse_dropped :
    (get_verses_by_reference usfxDocA "JHN" 1 none none "t").map
      (fun r => (r.verse, r.text)) = [(1, "God so loved")] := by decide

/-! ## Claim C2 -/

/-- Claim C2 counterexample: in the OSIS branch a verse whose trimmed text is
empty is not dropped — `osisDocB` yields a record for verse 17 with
`text = ""`, refuting the claim that all three branches return only verses
with non-empty trimmed text. -/
theorem c2_counterexample :
    (get_verses_by_reference osisDocB "JHN" 3 none none "t").map
      (fun r => (r.verse, r.text)) = [(16, "For God"), (17, "")] ∧
    ¬ (∀ r ∈ get_verses_by_reference osisDocB "JHN" 3 none none "t",
        r.text ≠ "") := by
  exact ⟨by decide, by decide⟩

/-! ## Claim C3 -/

/-- Claim C3 counterexample: a document repeating the `osisID` JHN.3.16 makes
`get_verses_by_reference` return verse number 16 twice, so the output is not
strictly increasing and has duplicate verse numbers. -/
theorem c3_counterexample :
    ((get_verses_by_reference osisDocD "JHN" 3 none none "t").map
      (fun r => r.verse)) = [16, 16] ∧
    ¬ ((get_verses_by_reference osisDocD "JHN" 3 none none "t").map
      (fun r => r.verse)).Nodup := by
  exact ⟨by decide, by decide⟩

/-- Claim C3 (amended): the returned list is sorted ascending (non-strictly) by
verse number for every document and query — the final
`sorted(verses, key=lambda x: x['verse'])` guarantees this; strictness and
absence of duplicates do not hold in general (see the counterexample). -/
theorem c3_sorted_ascending (root : Elem) (book : String) (chapter : Int)
    (vs ve : Option Int) (tid : String) :
    List.Pairwise (fun a b : VerseRec => a.verse ≤ b.verse)
      (get_verses_by_reference root book chapter vs ve tid) := by
  unfold get_verses_by_reference
  cases bookLookup root book with
  | none => simp
  | some be => exact pairwise_pySorted _ _

/-! ## Claim C4 -/

/-- Claim C4 counterexample: the reversed range "John 3:16-2" is accepted by
`parse_bible_reference` and returned as-is, with `verse_end < verse_start`,
refuting the claimed invariant `verse_start ≤ verse_end`. -/
theorem c4_counterexample :
    ∃ f t : RefPoint,
      parse_bible_reference "John 3:16-2" = some [(f, t)] ∧ t.verse < f.verse :=
  ⟨{ book := "JHN", chapter := 3, verse := 16 },
   { book := "JHN", chapter := 3, verse := 2 }, by decide, by decide⟩

/-- Claim C4 (amended): every successful parse yields exactly one `(from, to)`
pair with equal books and equal chapters, and when the input has no end verse
(capture group 4 is absent) `verse_end` defaults to `verse_start`; the relation
`verse_start ≤ verse_end` is NOT enforced for explicit ranges. -/
theorem c4_single_same_chapter_range (s : String)
    (l : List (RefPoint × RefPoint)) (h : parse_bible_reference s = some l) :
    ∃ f t : RefPoint, l = [(f, t)] ∧ t.book = f.book ∧ t.chapter = f.chapter ∧
      ((matchRef (refPreprocess s)).bind (fun g => g.g4) = none →
        t.verse = f.verse) := by
  unfold parse_bible_reference at h
  cases hm : matchRef (refPreprocess s) with
  | none => rw [hm] at h; cases h
  | some g =>
    rw [hm] at h
    dsimp only at h
    cases h2 : pyInt? g.g2 with
    | none => rw [h2] at h; cases h
    | some chapter =>
      cases h3 : pyInt? g.g3 with
      | none => rw [h2, h3] at h; cases h
      | some vstart =>
        rw [h2, h3] at h
        dsimp only at h
        injection h with h
        refine ⟨_, _, h.symm, rfl, rfl, ?_⟩
        intro hg4
        simp only [Option.some_bind] at hg4
        simp [hg4]

/-- Claim C4 witness: the amended statement instantiated at "John 3:16". -/
theorem c4_single_same_chapter_range_witness :
    ∃ f t : RefPoint,
      [(({ book := "JHN", chapter := 3, verse := 16 } : RefPoint),
        ({ book := "JHN", chapter := 3, verse := 16 } : RefPoint))] = [(f, t)] ∧
      t.book = f.book ∧ t.chapter = f.chapter ∧
      ((matchRef (refPreprocess "John 3:16")).bind (fun g => g.g4) = none →
        t.verse = f.verse) :=
  c4_single_same_chapter_range "John 3:16" _ (by decide)

/-! ## Claim C5 -/

/-- Claim C5: `parse_bible_reference` maps "John 3:16" to the single range
JHN 3:16–16 and "Matt 5:1-10" to the single range MAT 5:1–10. -/
theorem c5_parse_examples :
    parse_bible_reference "John 3:16" =
      some [({ book := "JHN", chapter := 3, verse := 16 },
             { book := "JHN", chapter := 3, verse := 16 })] ∧
    parse_bible_reference "Matt 5:1-10" =
      some [({ book := "MAT", chapter := 5, verse := 1 },
             { book := "MAT", chapter := 5, verse := 10 })] := by
  exact ⟨by decide, by decide⟩

/-! ## Claim C6 -/

/-- Claim C6: `parse_bible_reference` fails (returns no ranges) on the empty
string, on "NotARef" (no chapter:verse delimiter) and on "John3:16" (no space
between book token and chapter). -/
theorem c6_parse_failures :
    parse_bible_reference "" = none ∧
    parse_bible_reference "NotARef" = none ∧
    parse_bible_reference "John3:16" = none := by
  exact ⟨by decide, by decide, by decide⟩

/-! ## Claim C7 -/

/-- Claim C7: `_normalize_book_id` is a total function (it cannot raise);
aliases converge — normalize("Matthew") = normalize("MAT") = "MAT" and both
"1Sam" and "1SAMUEL" resolve to "1SA" — and any input whose uppercased,
stripped form has length ≠ 3 and is absent from the alias table maps to the
first three characters of that uppercased form. -/
theorem c7_normalize_book_id :
    (normalize_book_id "Matthew" = "MAT" ∧ normalize_book_id "MAT" = "MAT" ∧
     normalize_book_id "1Sam" = "1SA" ∧ normalize_book_id "1SAMUEL" = "1SA") ∧
    ∀ s : String,
      (pyStrip (pyUpper s)).length ≠ 3 →
      lookupAssoc book_mapping (pyReplace (pyStrip (pyUpper s)) " " "") = none →
      normalize_book_id s = pyTake (pyStrip (pyUpper s)) 3 := by
  refine ⟨⟨by decide, by decide, by decide, by decide⟩, ?_⟩
  intro s h1 h2
  unfold normalize_book_id
  rw [if_neg h1, h2]
  rfl

/-- Claim C7 witness: the fallback case at the concrete input "XYZW". -/
theorem c7_normalize_book_id_witness : normalize_book_id "XYZW" = "XYZ" :=
  (c7_normalize_book_id.2 "XYZW" (by decide) (by decide)).trans (by decide)
/-! ## Claim C2, amended part: the USFX branch only emits nonempty text -/

theorem usfxAccum_out (chapter : Int) (st : UsfxSt) (e : Elem) :
    (usfxAccum chapter st e).out = st.out := by
  unfold usfxAccum
  split <;> rfl

theorem usfxFlush_text_ne (chapter : Int) (vs ve : Option Int)
    (bid bname tid : String) (st : UsfxSt)
    (h : ∀ r ∈ st.out, r.text ≠ "") :
    ∀ r ∈ usfxFlush chapter vs ve bid bname tid st, r.text ≠ "" := by
  intro r hr
  unfold usfxFlush at hr
  split at hr
  · rename_i hc
    rcases List.mem_append.mp hr with h1 | h2
    · exact h r h1
    · rw [List.mem_singleton] at h2
      subst h2
      show pyStrip st.txt ≠ ""
      unfold usfxEmitCheck at hc
      cases hcv : st.cv with
      | none => rw [hcv] at hc; cases hc
      | some v =>
        rw [hcv] at hc
        simp only [Bool.and_eq_true, bne_iff_ne, ne_eq] at hc
        exact hc.1.2
  · exact h r hr

theorem usfxStep_out_cases (chapter : Int) (vs ve : Option Int)
    (bid bname tid : String) (st : UsfxSt) (e : Elem) :
    (usfxStep chapter vs ve bid bname tid st e).out = st.out ∨
    (usfxStep chapter vs ve bid bname tid st e).out =
      usfxFlush chapter vs ve bid bname tid st := by
  unfold usfxStep
  split
  · split
    · split
      · exact Or.inl rfl
      · exact Or.inl rfl
    · exact Or.inl (usfxAccum_out chapter st e)
  · split
    · split
      · dsimp only
        split
        · exact Or.inr rfl
        · exact Or.inr rfl
      · exact Or.inl (usfxAccum_out chapter st e)
    · exact Or.inl (usfxAccum_out chapter st e)

theorem usfxStep_text_ne (chapter : Int) (vs ve : Option Int)
    (bid bname tid : String) (st : UsfxSt) (e : Elem)
    (h : ∀ r ∈ st.out, r.text ≠ "") :
    ∀ r ∈ (usfxStep chapter vs ve bid bname tid st e).out, r.text ≠ "" := by
  rcases usfxStep_out_cases chapter vs ve bid bname tid st e with ho | ho
  · intro r hr
    rw [ho] at hr
    exact h r hr
  · intro r hr
    rw [ho] at hr
    exact usfxFlush_text_ne chapter vs ve bid bname tid st h r hr

theorem usfxFold_text_ne (chapter : Int) (vs ve : Option Int)
    (bid bname tid : String) (l : List Elem) (st : UsfxSt)
    (h : ∀ r ∈ st.out, r.text ≠ "") :
    ∀ r ∈ (l.foldl (usfxStep chapter vs ve bid bname tid) st).out, r.text ≠ "" := by
  induction l generalizing st with
  | nil => exact h
  | cons e es ih =>
    exact ih _ (usfxStep_text_ne chapter vs ve bid bname tid st e h)

theorem usfxVerses_text_ne (be : Elem) (chapter : Int) (vs ve : Option Int)
    (bid bname tid : String) :
    ∀ r ∈ usfxVerses be chapter vs ve bid bname tid, r.text ≠ "" := by
  intro r hr
  unfold usfxVerses at hr
  exact usfxFlush_text_ne chapter vs ve bid bname tid _
    (usfxFold_text_ne chapter vs ve bid bname tid (iterElems be)
      { cc := none, cv := none, txt := "", out := [] }
      (by intro x hx; cases hx)) r hr

/-- Claim C2 (amended): when the document root is USFX (the condition of line
261), every verse record returned by `get_verses_by_reference` has nonempty
(trimmed) text — the emission checks at lines 277–280 and 306–309 require
`verse_text.strip()` to be truthy and store exactly that stripped text.
The OSIS and generic branches do not share this guarantee (see the
counterexample). -/
theorem c2_usfx_nonempty_text (root : Elem) (book : String) (chapter : Int)
    (vs ve : Option Int) (tid : String)
    (h : root.tag = "usfx" ∨ strContains root.tag "usfx" = true) :
    ∀ r ∈ get_verses_by_reference root book chapter vs ve tid, r.text ≠ "" := by
  intro r hr
  unfold get_verses_by_reference at hr
  cases hb : bookLookup root book with
  | none => rw [hb] at hr; cases hr
  | some be =>
    rw [hb] at hr
    dsimp only at hr
    rw [if_pos h, mem_pySorted] at hr
    exact usfxVerses_text_ne be chapter vs ve _ _ tid r hr

/-- Claim C2 witness: the amended USFX guarantee at the concrete document
`usfxDocC`, whose only verse is returned with text "Hello". -/
theorem c2_usfx_nonempty_text_witness :
    ({ id := 1, book_id := "JHN", book := "JHN", chapter := 1, verse := 1,
       text := "Hello", translation_id := "t" } : VerseRec).text ≠ "" :=
  c2_usfx_nonempty_text usfxDocC "JHN" 1 none none "t" (Or.inl rfl) _ (by decide)

/-! ## Claim C8: memoization of `list_translations` -/

theorem list_translations_available (env : BlobEnv) (st : ServiceState) :
    ((list_translations env st).2.1).available =
      some (list_translations env st).1 := by
  unfold list_translations
  cases h : st.available with
  | some ts => simpa using h
  | none =>
    rcases hp : processBlobs env env.blobs st [] 0 with ⟨ts, st', n⟩
    simp

theorem list_translations_of_available (env : BlobEnv) (st : ServiceState)
    (ts : List TransInfo) (h : st.available = some ts) :
    list_translations env st = (ts, st, 0) := by
  unfold list_translations
  rw [h]

/-- Claim C8: calling `list_translations` twice returns the same contents both
times, and the second call performs no blob fetch (count 0) and leaves the
state unchanged — the first call stores the list in `_available_translations`
(line 141) and the second call returns it immediately (lines 112–113). -/
theorem c8_list_translations_memoized (env : BlobEnv) (st : ServiceState) :
    (list_translations env ((list_translations env st).2.1)).1 =
      (list_translations env st).1 ∧
    (list_translations env ((list_translations env st).2.1)).2.2 = 0 ∧
    (list_translations env ((list_translations env st).2.1)).2.1 =
      (list_translations env st).2.1 := by
  have h := list_translations_available env st
  rw [list_translations_of_available env _ _ h]
  exact ⟨rfl, rfl, rfl⟩

/-! ## Claim C9: parse failure still yields a minimal catalog record -/

/-- Every cached blob content is the content the environment serves (true of
the fresh service and preserved by every fetch). -/
def cacheConsistent (env : BlobEnv) (st : ServiceState) : Prop :=
  ∀ p c, lookupAssoc st.xmlCache p = some c → env.content p = some c

theorem lookupAssoc_append_single {α : Type} (l : List (String × α))
    (p : String) (c : α) (q : String) (v : α)
    (h : lookupAssoc (l ++ [(p, c)]) q = some v) :
    lookupAssoc l q = some v ∨ (p = q ∧ c = v) := by
  induction l with
  | nil =>
    right
    simp only [List.nil_append, lookupAssoc] at h
    by_cases hpq : p = q
    · rw [if_pos hpq] at h
      injection h with h
      exact ⟨hpq, h⟩
    · rw [if_neg hpq] at h
      cases h
  | cons a t ih =>
    rcases a with ⟨k0, v0⟩
    simp only [List.cons_append, lookupAssoc] at h ⊢
    by_cases hk : k0 = q
    · rw [if_pos hk] at h ⊢
      exact Or.inl h
    · rw [if_neg hk] at h ⊢
      rcases ih h with h1 | h2
      · exact Or.inl h1
      · exact Or.inr h2

theorem get_xml_content_fst (env : BlobEnv) (st : ServiceState) (p : String)
    (h : cacheConsistent env st) :
    (get_xml_content env st p).1 = env.content p := by
  unfold get_xml_content
  cases hl : lookupAssoc st.xmlCache p with
  | some c => simpa using (h p c hl).symm
  | none =>
    cases hc : env.content p with
    | some c => rfl
    | none => rfl

theorem get_xml_content_consistent (env : BlobEnv) (st : ServiceState)
    (p : String) (h : cacheConsistent env st) :
    cacheConsistent env (get_xml_content env st p).2.1 := by
  unfold get_xml_content
  cases hl : lookupAssoc st.xmlCache p with
  | some c => exact h
  | none =>
    cases hc : env.content p with
    | none => exact h
    | some c =>
      intro q d hq
      rcases lookupAssoc_append_single st.xmlCache p c q d hq with hin | ⟨rfl, rfl⟩
      · exact h q d hin
      · exact hc

theorem processBlobs_acc_mem (env : BlobEnv) (bs : List String)
    (st : ServiceState) (acc : List TransInfo) (n : Nat) (x : TransInfo)
    (hx : x ∈ acc) : x ∈ (processBlobs env bs st acc n).1 := by
  induction bs generalizing st acc n with
  | nil => exact hx
  | cons b t ih =>
    unfold processBlobs
    split
    · rcases hf : get_xml_content env st b with ⟨c?, st1, k⟩
      cases c? with
      | some c =>
        dsimp only
        by_cases hne : c ≠ ""
        · rw [if_pos hne]
          exact ih _ _ _ (List.mem_append_left _ hx)
        · rw [if_neg hne]
          exact ih _ _ _ hx
      | none => exact ih _ _ _ hx
    · exact ih _ _ _ hx

theorem processBlobs_mem (env : BlobEnv) (bs : List String)
    (st : ServiceState) (acc : List TransInfo) (n : Nat) (b c : String)
    (hcons : cacheConsistent env st) (hb : b ∈ bs)
    (hx : strEnds b ".xml" = true) (hc : env.content b = some c)
    (hne : c ≠ "") (hp : env.parseXml c = none) :
    { parse_xml_for_translation_info none (blobIdentifier b) with
      file_path := b } ∈ (processBlobs env bs st acc n).1 := by
  induction bs generalizing st acc n with
  | nil => cases hb
  | cons b0 t ih =>
    rcases List.mem_cons.mp hb with rfl | hbt
    · unfold processBlobs
      rw [if_pos hx]
      rcases hf : get_xml_content env st b with ⟨c?, st1, k⟩
      have h1 : c? = some c := by
        have := get_xml_content_fst env st b hcons
        rw [hf, hc] at this
        exact this
      subst h1
      dsimp only
      rw [if_pos hne, hp]
      exact processBlobs_acc_mem env t _ _ _ _
        (List.mem_append_right _ (List.mem_singleton.mpr rfl))
    · have hcons' := get_xml_content_consistent env st b0 hcons
      unfold processBlobs
      split
      · rcases hf : get_xml_content env st b0 with ⟨c?, st1, k⟩
        rw [hf] at hcons'
        cases c? with
        | some c0 =>
          dsimp only at hcons' ⊢
          by_cases hne0 : c0 ≠ ""
          · rw [if_pos hne0]
            exact ih _ _ _ hcons' hbt
          · rw [if_neg hne0]
            exact ih _ _ _ hcons' hbt
        | none => exact ih _ _ _ hcons' hbt
      · exact ih _ _ _ hcons hbt

/-- Claim C9: when a blob's content is retrieved but its XML fails to parse,
`list_translations` still returns a record for that file with the identifier
derived from the filename, the name defaulted to the uppercased identifier and
the license "Unknown" (lines 100–108); the listing is a total function — one
bad file cannot abort it. -/
theorem c9_parse_failure_minimal_record (env : BlobEnv) (b c : String)
    (hb : b ∈ env.blobs) (hx : strEnds b ".xml" = true)
    (hc : env.content b = some c) (hne : c ≠ "")
    (hp : env.parseXml c = none) :
    ∃ r ∈ (list_translations env initState).1,
      r.identifier = blobIdentifier b ∧
      r.name = pyUpper (blobIdentifier b) ∧
      r.license = "Unknown" ∧ r.file_path = b := by
  have hm := processBlobs_mem env env.blobs initState [] 0 b c
    (by intro p c0 h0; cases h0) hb hx hc hne hp
  refine ⟨{ parse_xml_for_translation_info none (blobIdentifier b) with
    file_path := b }, ?_, rfl, rfl, rfl, rfl⟩
  unfold list_translations
  show _ ∈ (match processBlobs env env.blobs initState [] 0 with
    | (ts, st', n) => (ts, { st' with available := some ts }, n)).1
  rcases hq : processBlobs env env.blobs initState [] 0 with ⟨ts, st', n⟩
  rw [hq] at hm
  exact hm

/-- Claim C9 witness: a one-blob container whose only file is unparsable XML. -/
theorem c9_parse_failure_minimal_record_witness :
    ∃ r ∈ (list_translations
        { blobs := ["bad.xml"],
          content := fun p => if p = "bad.xml" then some "<" else none,
          parseXml := fun _ => none } initState).1,
      r.identifier = blobIdentifier "bad.xml" ∧
      r.name = pyUpper (blobIdentifier "bad.xml") ∧
      r.license = "Unknown" ∧ r.file_path = "bad.xml" :=
  c9_parse_failure_minimal_record
    { blobs := ["bad.xml"],
      content := fun p => if p = "bad.xml" then some "<" else none,
      parseXml := fun _ => none }
    "bad.xml" "<" (by decide) (by decide) (by decide) (by decide) rfl

/-! ## Claim C10: `get_random_verse` only reads the generic structure -/

mutual

/-- No element in the tree (the element itself included) carries the tag `t`. -/
def noTagE (t : String) : Elem → Bool
  | .mk tg _ _ cs _ => (tg != t) && noTagL t cs

/-- No element in a forest carries the tag `t`. -/
def noTagL (t : String) : List Elem → Bool
  | [] => true
  | e :: es => noTagE t e && noTagL t es

end

mutual

theorem noTagE_sound (t : String) : ∀ (e : Elem), noTagE t e = true →
    ∀ a ∈ iterElems e, a.tag ≠ t
  | .mk tg at0 x cs tl, h, a, ha => by
    unfold noTagE at h
    rw [Bool.and_eq_true, bne_iff_ne] at h
    unfold iterElems at ha
    rcases List.mem_cons.mp ha with rfl | hd
    · exact h.1
    · exact noTagL_sound t cs h.2 a hd

theorem noTagL_sound (t : String) : ∀ (l : List Elem), noTagL t l = true →
    ∀ a ∈ iterElemsList l, a.tag ≠ t
  | [], _, a, ha => by cases ha
  | e :: es, h, a, ha => by
    unfold noTagL at h
    rw [Bool.and_eq_true] at h
    unfold iterElemsList at ha
    rcases List.mem_append.mp ha with hd | hd
    · exact noTagE_sound t e h.1 a hd
    · exact noTagL_sound t es h.2 a hd

end

mutual

theorem noTagE_hered (t : String) : ∀ (e : Elem), noTagE t e = true →
    ∀ a ∈ iterElems e, noTagE t a = true
  | .mk tg at0 x cs tl, h, a, ha => by
    unfold iterElems at ha
    rcases List.mem_cons.mp ha with rfl | hd
    · exact h
    · unfold noTagE at h
      rw [Bool.and_eq_true] at h
      exact noTagL_hered t cs h.2 a hd

theorem noTagL_hered (t : String) : ∀ (l : List Elem), noTagL t l = true →
    ∀ a ∈ iterElemsList l, noTagE t a = true
  | [], _, a, ha => by cases ha
  | e :: es, h, a, ha => by
    unfold noTagL at h
    rw [Bool.and_eq_true] at h
    unfold iterElemsList at ha
    rcases List.mem_append.mp ha with hd | hd
    · exact noTagE_hered t e h.1 a hd
    · exact noTagL_hered t es h.2 a hd

end

theorem filter_eq_nil_of_forall {α : Type} (p : α → Bool) (l : List α)
    (h : ∀ a ∈ l, p a = false) : l.filter p = [] := by
  induction l with
  | nil => rfl
  | cons a t ih =>
    rw [List.filter_cons, h a (List.mem_cons_self a t)]
    exact ih (fun x hx => h x (List.mem_cons_of_mem a hx))

theorem flatMap_eq_nil_of_forall {α β : Type} (l : List α) (f : α → List β)
    (h : ∀ a ∈ l, f a = []) : l.flatMap f = [] := by
  induction l with
  | nil => rfl
  | cons a t ih =>
    rw [List.flatMap_cons, h a (List.mem_cons_self a t)]
    exact ih (fun x hx => h x (List.mem_cons_of_mem a hx))

theorem findallDesc_eq_nil (root : Elem) (t : String)
    (h : noTagE t root = true) :
    findallDesc root (fun e => e.tag == t) = [] := by
  rcases root with ⟨tg, at0, x, cs, tl⟩
  unfold noTagE at h
  rw [Bool.and_eq_true] at h
  apply filter_eq_nil_of_forall
  intro a ha
  rw [beq_eq_false_iff_ne]
  exact noTagL_sound t cs h.2 a ha

theorem randBookVerses_eq_nil (books : Option (List String)) (b : Elem)
    (h : noTagE "chapter" b = true) :
    randBookVerses books b = [] := by
  unfold randBookVerses
  rw [findallDesc_eq_nil b "chapter" h]
  dsimp only
  split
  · rfl
  · rfl

/-- Claim C10: `get_random_verse` collects verses only through the generic
nested `book`/`chapter[@number]`/`verse` structure (lines 516–546): for any
document with no plainly-tagged `chapter` element anywhere (USFX documents mark
chapters with `c` markers; OSIS documents use namespaced tags and `osisID`
attributes) or with no plainly-tagged `book` element anywhere (OSIS), it
returns `None` for every random draw, no matter how many verses with nonempty
text the document holds. -/
theorem c10_random_verse_generic_only (root : Elem)
    (books : Option (List String))
    (h : noTagE "chapter" root = true ∨ noTagE "book" root = true) :
    ∀ r, get_random_verse root books r = none := by
  intro r
  have hall : randAllVerses root books = [] := by
    rcases h with h | h
    · unfold randAllVerses
      apply flatMap_eq_nil_of_forall
      intro b hb
      apply randBookVerses_eq_nil
      rcases hroot : root with ⟨tg, at0, x, cs, tl⟩
      rw [hroot] at h
      unfold noTagE at h
      rw [Bool.and_eq_true] at h
      refine noTagL_hered "chapter" cs h.2 b ?_
      have := List.mem_filter.mp (by
        rw [hroot] at hb
        exact hb)
      exact this.1
    · unfold randAllVerses
      rw [findallDesc_eq_nil root "book" h]
      rfl
  unfold get_random_verse
  rw [hall]
  rfl

/-- Claim C10 witness: the USFX document `usfxDocE` (chapters as `c` markers)
and the OSIS document `osisDocF` (verses as `osisID` attributes) both contain a
verse with nonempty text, yet every random draw returns `None`. -/
theorem c10_random_verse_generic_only_witness :
    get_random_verse usfxDocE none 0 = none ∧
    get_random_verse osisDocF none 0 = none :=
  ⟨c10_random_verse_generic_only usfxDocE none (Or.inl (by decide)) 0,
   c10_random_verse_generic_only osisDocF none (Or.inr (by decide)) 0⟩
